import Mathlib

/-!
Shallow embedding of the `images` gallery server (`main.go`, thumbnail-enabled
variant).  File contents and HTTP bodies are modelled as `String`s; the
filesystem is a read oracle mapping a path to either an error message or the
file's contents.  Pure helpers from the Go standard library that the program
calls (`filepath.Base`, `strings.TrimSuffix`, `sort.Strings`, the
`encoding/json` string escaper) are embedded here as executable functions.
-/

namespace Images

/-- Unix path-separator test (`os.IsPathSeparator`): only `/`. -/
def isSep (c : Char) : Bool := c == '/'

/-- Go `filepath.Base` on Unix: the empty path gives `"."`; trailing
separators are stripped; the suffix after the last remaining separator is
returned; a path consisting only of separators gives `"/"`. -/
def goFilepathBase (path : String) : String :=
  if path = "" then "."
  else
    let seg := ((path.toList.reverse.dropWhile isSep).takeWhile (fun c => !(isSep c))).reverse
    if seg = [] then "/" else String.mk seg

/-- The name check shared by `routeImage` and `routeThumbs` (main.go lines
375-379 and 391-395): `file := filepath.Base(ps[0].Value)` followed by
`if file == ".." { return errors.New("file not found") }`; on acceptance the
base name is what the handler joins under the fixed directory. -/
def pathGuard (param : String) : Except String String :=
  let file := goFilepathBase param
  if file = ".." then Except.error "file not found" else Except.ok file

/-- Lowercase hexadecimal digit, as used by `encoding/json` `\u00XX` escapes. -/
def hexDigit (n : Nat) : Char :=
  if n < 10 then Char.ofNat ('0'.toNat + n) else Char.ofNat ('a'.toNat + n - 10)

/-- Escaping of one character of a JSON string by Go `encoding/json.Marshal`
(HTML-escaping mode, the default): quotes, backslash, newline, carriage
return and tab get two-character escapes, `<`, `>`, `&` and the line
separators U+2028/U+2029 get `\uXXXX` escapes, other control characters get
`\u00XX`, anything else is kept. -/
def goJSONEscapeChar (c : Char) : String :=
  if c = '"' then "\\\""
  else if c = '\\' then "\\\\"
  else if c = '\n' then "\\n"
  else if c = '\r' then "\\r"
  else if c = '\t' then "\\t"
  else if c = '<' then "\\u003c"
  else if c = '>' then "\\u003e"
  else if c = '&' then "\\u0026"
  else if c.toNat = 8232 then "\\u2028"
  else if c.toNat = 8233 then "\\u2029"
  else if c.toNat < 32 then
    String.mk ['\\', 'u', '0', '0', hexDigit (c.toNat / 16), hexDigit (c.toNat % 16)]
  else String.mk [c]

/-- Go `encoding/json` escaping of a whole string. -/
def goJSONEscape (s : String) : String :=
  s.toList.foldl (fun acc c => acc ++ goJSONEscapeChar c) ""

/-- The body `handleError` writes on failure: `json.Marshal(Error{Error: err.Error()})`
for the struct `Error { Error string `json:"error"` }` (main.go lines 338-350). -/
def jsonErrorBody (msg : String) : String :=
  "\x7b\"error\":\"" ++ goJSONEscape msg ++ "\"\x7d"

/-- An HTTP response as observed on the wire: Go's `ResponseWriter` reports
status 200 unless `WriteHeader` is called, and no handler in main.go ever
calls it. -/
structure Response where
  status : Nat
  contentType : String
  body : String
deriving DecidableEq

instance {ε α : Type} [DecidableEq ε] [DecidableEq α] : DecidableEq (Except ε α) :=
  fun a b =>
    match a, b with
    | Except.ok x, Except.ok y =>
      if h : x = y then isTrue (congrArg Except.ok h)
      else isFalse (fun hc => h (Except.ok.inj hc))
    | Except.error x, Except.error y =>
      if h : x = y then isTrue (congrArg Except.error h)
      else isFalse (fun hc => h (Except.error.inj hc))
    | Except.ok _, Except.error _ => isFalse (fun hc => Except.noConfusion hc)
    | Except.error _, Except.ok _ => isFalse (fun hc => Except.noConfusion hc)

/-- Filesystem read oracle: `ioutil.ReadFile` either fails with an error
message or yields the file contents. -/
abbrev Fs := String → Except String String

/-- `handleError` (main.go lines 338-350): a handler's error is marshalled to
the JSON envelope with content type `application/json`; `WriteHeader` is never
called, so the status stays 200 in both branches. -/
def handleError (result : Except String (String × String)) : Response :=
  match result with
  | Except.ok (ct, body) => ⟨200, ct, body⟩
  | Except.error e => ⟨200, "application/json", jsonErrorBody e⟩

/-- `routeImage` (main.go lines 375-389): guard the `:image` parameter, then
read `"imgs/" + file` and answer with content type `image/gif`. -/
def routeImage (fs : Fs) (param : String) : Except String (String × String) :=
  match pathGuard param with
  | Except.error e => Except.error e
  | Except.ok file =>
    match fs ("imgs/" ++ file) with
    | Except.error e => Except.error e
    | Except.ok data => Except.ok ("image/gif", data)

/-- The filesystem paths `routeImage` reads for a given parameter. -/
def routeImageReads (param : String) : List String :=
  match pathGuard param with
  | Except.error _ => []
  | Except.ok file => ["imgs/" ++ file]

/-- `routeThumbs` (main.go lines 391-405): guard the parameter, then read
`"thumbs/" + file` and answer with content type `image/jpeg`. -/
def routeThumbs (fs : Fs) (param : String) : Except String (String × String) :=
  match pathGuard param with
  | Except.error e => Except.error e
  | Except.ok file =>
    match fs ("thumbs/" ++ file) with
    | Except.error e => Except.error e
    | Except.ok data => Except.ok ("image/jpeg", data)

/-- The filesystem paths `routeThumbs` reads for a given parameter. -/
def routeThumbsReads (param : String) : List String :=
  match pathGuard param with
  | Except.error _ => []
  | Except.ok file => ["thumbs/" ++ file]

/-- Go `sort.Strings`: ascending bytewise lexicographic order, which on
UTF-8 strings coincides with the codepoint order of Lean's `String` order. -/
def goSortStrings (l : List String) : List String :=
  l.mergeSort (fun a b => a ≤ b)

/-- `routeIndex` (main.go lines 352-373): read the entries of `imgs/`, sort
them, and execute the index template on them.  Template execution
(`html/template`) is an external collaborator, abstracted as `render`. -/
def routeIndex (render : List String → String) (dirResult : Except String (List String)) :
    Except String (String × String) :=
  match dirResult with
  | Except.error e => Except.error e
  | Except.ok entries => Except.ok ("text/html", render (goSortStrings entries))

/-- The routes registered in `main` (main.go lines 315-318). -/
def registeredRoutes : List (String × String) :=
  [("GET", "/"), ("GET", "/images/:image"), ("GET", "/thumbs/:image")]

/-- Go `strings.HasSuffix s suffix`: the last `len(suffix)` characters of `s`
equal `suffix`. -/
def goHasSuffix (s suffix : String) : Bool :=
  decide (suffix.toList.length ≤ s.toList.length ∧
    s.toList.drop (s.toList.length - suffix.toList.length) = suffix.toList)

/-- Go `strings.TrimSuffix s suffix`: remove the trailing `suffix` if present,
otherwise return `s` unchanged. -/
def goTrimSuffix (s suffix : String) : String :=
  if goHasSuffix s suffix then
    String.mk (s.toList.take (s.toList.length - suffix.toList.length))
  else s

/-- The derived thumbnail filename (main.go line 286):
`strings.TrimSuffix(name, ".gif") + ".jpeg"`. -/
def thumbName (name : String) : String :=
  goTrimSuffix name ".gif" ++ ".jpeg"

/-- One iteration of the thumbnail batch loop (main.go lines 285-311) over a
state holding the thumbnail directory (an association list of filename to
contents) and a counter of decode/resize/encode passes performed this run.
If `thumbs/<derived name>` exists (`os.Stat` succeeds) the file is skipped;
otherwise the derived file is produced by `gen`, which stands for
open + `image.Decode` + `resize.Resize` + `jpeg.Encode` of the source. -/
def thumbStep (gen : String → String) (st : List (String × String) × Nat) (name : String) :
    List (String × String) × Nat :=
  match st.1.lookup (thumbName name) with
  | some _ => st
  | none => ((thumbName name, gen name) :: st.1, st.2 + 1)

/-- The whole batch (main.go lines 268-313): sort the source names, then fold
the loop body over them, starting with a fresh work counter. -/
def thumbBatch (gen : String → String) (names : List String) (dir : List (String × String)) :
    List (String × String) × Nat :=
  (goSortStrings names).foldl (thumbStep gen) (dir, 0)

/-- The loop body with fallible generation: in main.go any open, decode,
create, or encode error inside the loop calls `panic`, aborting the batch;
that abort is modelled as `Except.error`. -/
def thumbStepE (gen : String → Except String String) (st : List (String × String) × Nat)
    (name : String) : Except String (List (String × String) × Nat) :=
  match st.1.lookup (thumbName name) with
  | some _ => Except.ok st
  | none =>
    match gen name with
    | Except.error e => Except.error e
    | Except.ok c => Except.ok ((thumbName name, c) :: st.1, st.2 + 1)

/-- Processing of a list of source names in order with the abort-on-error
loop body: the Go `for _, name := range names` loop, where a `panic` stops
the whole run. -/
def thumbRunE (gen : String → Except String String) :
    List String → List (String × String) × Nat → Except String (List (String × String) × Nat)
  | [], st => Except.ok st
  | name :: rest, st =>
    match thumbStepE gen st name with
    | Except.error e => Except.error e
    | Except.ok st' => thumbRunE gen rest st'

/-- The fallible batch: sorted names, fresh counter. -/
def thumbBatchE (gen : String → Except String String) (names : List String)
    (dir : List (String × String)) : Except String (List (String × String) × Nat) :=
  thumbRunE gen (goSortStrings names) (dir, 0)

/-- Written from the spec's words, for comparison with `thumbName`: replace
the source name's extension (everything from the last dot on) with `.jpeg`. -/
def specReplaceExtension (name : String) : String :=
  if '.' ∈ name.toList then
    String.mk ((name.toList.reverse.dropWhile (fun c => !(c == '.'))).drop 1).reverse ++ ".jpeg"
  else String.mk name.toList ++ ".jpeg"

/-- The arguments of a call to the resampling library. -/
structure ResizeCall where
  width : Nat
  height : Nat
  filterName : String
deriving DecidableEq

/-- The call src makes at main.go line 300: `resize.Resize(128, 0, img, resize.Lanczos3)`. -/
def thumbResizeCall : ResizeCall := ⟨128, 0, "Lanczos3"⟩

/-- The options src passes to `jpeg.Encode` at main.go line 306: `nil`,
meaning default quality. -/
def thumbJpegQuality : Option Nat := none

/-- Modelled from the spec: the output dimensions of the external resampling
library (github.com/nfnt/resize, a dependency whose source is not part of
this repository).  The requested width is kept, and a requested height of 0
is auto-computed from the aspect ratio as the rounded value of
`width * oh / ow`, written here with natural-number arithmetic. -/
def resizeOutputDims (call : ResizeCall) (ow oh : Nat) : Nat × Nat :=
  if call.height = 0 ∧ call.width ≠ 0 then
    (call.width, (2 * call.width * oh + ow) / (2 * ow))
  else (call.width, call.height)

/-- Sample read oracle with no files: every read fails. -/
def fsEmpty : Fs := fun _ => Except.error "no such file or directory"

lemma dropWhile_isSep_eq_self {l : List Char} (h : ∀ c ∈ l, isSep c = false) :
    l.dropWhile isSep = l := by
  cases l with
  | nil => rfl
  | cons c t => simp [List.dropWhile_cons, h c (by simp)]

lemma takeWhile_not_isSep_eq_self {l : List Char} (h : ∀ c ∈ l, isSep c = false) :
    l.takeWhile (fun c => !(isSep c)) = l := by
  induction l with
  | nil => rfl
  | cons c t ih =>
    have hc : (!(isSep c)) = true := by simp [h c (List.mem_cons_self c t)]
    simp only [List.takeWhile_cons, hc, if_true, List.cons.injEq, true_and]
    exact ih (fun x hx => h x (List.mem_cons_of_mem c hx))

/-- On a nonempty separator-free string, `filepath.Base` is the identity. -/
lemma goFilepathBase_plain (s : String) (hne : s ≠ "") (hsep : ∀ c ∈ s.toList, c ≠ '/') :
    goFilepathBase s = s := by
  have hsep' : ∀ c ∈ s.toList.reverse, isSep c = false := by
    intro c hc
    rw [List.mem_reverse] at hc
    simp only [isSep, beq_eq_false_iff_ne, ne_eq]
    exact hsep c hc
  have hnil : s.toList ≠ [] := by
    intro hl
    exact hne (by rw [← String.asString_toList s, hl]; rfl)
  simp only [goFilepathBase, if_neg hne, dropWhile_isSep_eq_self hsep',
    takeWhile_not_isSep_eq_self hsep', List.reverse_reverse, if_neg hnil]
  rfl

/-- The guard errs exactly on inputs whose base name is `..`. -/
lemma pathGuard_reject_iff (s : String) :
    pathGuard s = Except.error "file not found" ↔ goFilepathBase s = ".." := by
  unfold pathGuard
  by_cases h : goFilepathBase s = ".."
  · simp [h]
  · simp [h]

/-- C1: the name check shared by routeImage and routeThumbs rejects exactly
those inputs whose extracted base name equals the parent-directory sentinel
`..` — including inputs made of stacked traversal segments such as
`../../..` — with the error `file not found`, and accepts every plain
filename (nonempty, free of path separators, and not the sentinel itself)
returning it unchanged for use under the fixed base directory. -/
theorem c1_pathGuard_rejects_dotdot_accepts_plain :
    (∀ s : String, pathGuard s = Except.error "file not found" ↔ goFilepathBase s = "..") ∧
    pathGuard "../../.." = Except.error "file not found" ∧
    (∀ s : String, s ≠ "" → (∀ c ∈ s.toList, c ≠ '/') → s ≠ ".." →
      pathGuard s = Except.ok s) := by
  refine ⟨pathGuard_reject_iff, by decide, ?_⟩
  intro s hne hsep hdd
  simp only [pathGuard, goFilepathBase_plain s hne hsep, if_neg hdd]

/-- Witness for C1 at the plain filename `a.gif`. -/
theorem c1_pathGuard_rejects_dotdot_accepts_plain_witness :
    (("a.gif" : String) ≠ "" ∧ (∀ c ∈ ("a.gif" : String).toList, c ≠ '/') ∧
      ("a.gif" : String) ≠ "..") ∧
    pathGuard "a.gif" = Except.ok "a.gif" :=
  ⟨by decide,
    c1_pathGuard_rejects_dotdot_accepts_plain.2.2 "a.gif" (by decide) (by decide) (by decide)⟩

/-- C2: for the traversal parameter `../../etc/passwd` the only path
routeImage ever reads is `imgs/passwd` — `imgs/` joined with the
separator-free base name — so the traversal target `/etc/passwd` is never
read, and when `imgs/passwd` is absent the response is the JSON error
envelope with status 200. -/
theorem c2_traversal_never_reads_target :
    ∀ (fs : Fs) (e : String), fs "imgs/passwd" = Except.error e →
      handleError (routeImage fs "../../etc/passwd") =
        ⟨200, "application/json", jsonErrorBody e⟩ ∧
      routeImageReads "../../etc/passwd" = ["imgs/passwd"] ∧
      "/etc/passwd" ∉ routeImageReads "../../etc/passwd" := by
  intro fs e h
  have hg : pathGuard "../../etc/passwd" = Except.ok "passwd" := by decide
  have hp : ("imgs/" ++ "passwd" : String) = "imgs/passwd" := by decide
  refine ⟨?_, by decide, by decide⟩
  simp only [routeImage, hg, hp, h]
  rfl

/-- Witness for C2 on the empty filesystem. -/
theorem c2_traversal_never_reads_target_witness :
    handleError (routeImage fsEmpty "../../etc/passwd") =
      ⟨200, "application/json", jsonErrorBody "no such file or directory"⟩ ∧
    routeImageReads "../../etc/passwd" = ["imgs/passwd"] ∧
    "/etc/passwd" ∉ routeImageReads "../../etc/passwd" :=
  c2_traversal_never_reads_target fsEmpty "no such file or directory" rfl

/-- C10 counterexample: the base name of a bare path separator is `/`,
not the current-directory sentinel `.` asserted by the claim. -/
theorem c10_counterexample : goFilepathBase "/" = "/" ∧ goFilepathBase "/" ≠ "." := by decide

/-- C10 (amended): the guard's rejection test is string equality with the
exact two-character name `..` only; the current-directory sentinel `.` —
which is also the base name of the empty string, while the base name of a
bare path separator is `/` (likewise accepted) — passes validation, so a
request for `.` proceeds to read `imgs/.` and surfaces any failure as the
underlying I/O error rather than the path-validation rejection. -/
theorem c10_dot_accepted_read_attempted :
    (∀ s : String, pathGuard s = Except.error "file not found" ↔ goFilepathBase s = "..") ∧
    goFilepathBase "" = "." ∧
    goFilepathBase "/" = "/" ∧
    pathGuard "." = Except.ok "." ∧
    (∀ (fs : Fs) (e : String), fs "imgs/." = Except.error e →
      routeImage fs "." = Except.error e ∧
      routeImageReads "." = ["imgs/."] ∧
      handleError (routeImage fs ".") = ⟨200, "application/json", jsonErrorBody e⟩) := by
  refine ⟨pathGuard_reject_iff, by decide, by decide, by decide, ?_⟩
  intro fs e h
  have hg : pathGuard "." = Except.ok "." := by decide
  have hp : ("imgs/" ++ "." : String) = "imgs/." := by decide
  refine ⟨?_, by decide, ?_⟩
  · simp only [routeImage, hg, hp, h]
  · simp only [routeImage, hg, hp, h]
    rfl

/-- Witness for C10 on the empty filesystem. -/
theorem c10_dot_accepted_read_attempted_witness :
    routeImage fsEmpty "." = Except.error "no such file or directory" ∧
    routeImageReads "." = ["imgs/."] ∧
    handleError (routeImage fsEmpty ".") =
      ⟨200, "application/json", jsonErrorBody "no such file or directory"⟩ :=
  c10_dot_accepted_read_attempted.2.2.2.2 fsEmpty "no such file or directory" rfl

/-- C3: for every state of the source directory, the listing routeIndex
builds and binds into the page is ascending in the lexicographic string
order and is a permutation of the directory's immediate entries (hence the
same set, with no filtering and no recursion), and routeIndex passes exactly
that listing to the template renderer. -/
theorem c3_listing_sorted_and_complete :
    ∀ entries : List String,
      List.Sorted (· ≤ ·) (goSortStrings entries) ∧
      (goSortStrings entries).Perm entries ∧
      ∀ render : List String → String,
        routeIndex render (Except.ok entries) =
          Except.ok ("text/html", render (goSortStrings entries)) := by
  intro entries
  exact ⟨List.sorted_mergeSort' entries, List.mergeSort_perm entries _, fun render => rfl⟩

/-- C6: for each of the three route handlers, a failing request (guard
rejection or I/O error) is answered with the JSON envelope
`{"error": "<message>"}` under content type `application/json`, and since no
handler ever sets a status code, every response — failure included — has
status 200. -/
theorem c6_failures_get_json_envelope_status_200 :
    (∀ r : Except String (String × String), (handleError r).status = 200) ∧
    (∀ (fs : Fs) (param e : String), routeImage fs param = Except.error e →
      handleError (routeImage fs param) = ⟨200, "application/json", jsonErrorBody e⟩) ∧
    (∀ (fs : Fs) (param e : String), routeThumbs fs param = Except.error e →
      handleError (routeThumbs fs param) = ⟨200, "application/json", jsonErrorBody e⟩) ∧
    (∀ (render : List String → String) (d : Except String (List String)) (e : String),
      routeIndex render d = Except.error e →
      handleError (routeIndex render d) = ⟨200, "application/json", jsonErrorBody e⟩) := by
  refine ⟨?_, ?_, ?_, ?_⟩
  · intro r
    cases r with
    | ok v => cases v; rfl
    | error e => rfl
  · intro fs param e h
    rw [h]
    rfl
  · intro fs param e h
    rw [h]
    rfl
  · intro render d e h
    rw [h]
    rfl

/-- Witness for C6: a missing file under each route on the empty filesystem. -/
theorem c6_failures_get_json_envelope_status_200_witness :
    routeImage fsEmpty "a.gif" = Except.error "no such file or directory" ∧
    handleError (routeImage fsEmpty "a.gif") =
      ⟨200, "application/json", jsonErrorBody "no such file or directory"⟩ ∧
    handleError (routeThumbs fsEmpty "a.jpeg") =
      ⟨200, "application/json", jsonErrorBody "no such file or directory"⟩ :=
  ⟨by decide,
    c6_failures_get_json_envelope_status_200.2.1 fsEmpty "a.gif"
      "no such file or directory" (by decide),
    c6_failures_get_json_envelope_status_200.2.2.1 fsEmpty "a.jpeg"
      "no such file or directory" (by decide)⟩

lemma thumbStep_skip (gen : String → String) (st : List (String × String) × Nat)
    (name : String) (h : (st.1.lookup (thumbName name)).isSome = true) :
    thumbStep gen st name = st := by
  obtain ⟨v, hv⟩ := Option.isSome_iff_exists.mp h
  unfold thumbStep
  rw [hv]

lemma thumbStep_mono (gen : String → String) (st : List (String × String) × Nat)
    (name t : String) (h : (st.1.lookup t).isSome = true) :
    ((thumbStep gen st name).1.lookup t).isSome = true := by
  unfold thumbStep
  cases hl : st.1.lookup (thumbName name) with
  | some v => exact h
  | none =>
    show ((((thumbName name, gen name) :: st.1).lookup t).isSome = true)
    cases hbeq : t == thumbName name with
    | true => simp [List.lookup, hbeq]
    | false => simp [List.lookup, hbeq, h]

lemma thumbStep_self_present (gen : String → String) (st : List (String × String) × Nat)
    (a : String) : ((thumbStep gen st a).1.lookup (thumbName a)).isSome = true := by
  unfold thumbStep
  cases hl : st.1.lookup (thumbName a) with
  | some v => simp [hl]
  | none => simp [List.lookup]

lemma foldl_thumbStep_mono (gen : String → String) (l : List String)
    (st : List (String × String) × Nat) (t : String) (h : (st.1.lookup t).isSome = true) :
    ((l.foldl (thumbStep gen) st).1.lookup t).isSome = true := by
  induction l generalizing st with
  | nil => exact h
  | cons a l ih =>
    rw [List.foldl_cons]
    exact ih (thumbStep gen st a) (thumbStep_mono gen st a t h)

lemma foldl_thumbStep_covers (gen : String → String) (l : List String)
    (st : List (String × String) × Nat) :
    ∀ n ∈ l, (((l.foldl (thumbStep gen) st).1).lookup (thumbName n)).isSome = true := by
  induction l generalizing st with
  | nil => intro n hn; cases hn
  | cons a l ih =>
    intro n hn
    rw [List.foldl_cons]
    rcases List.mem_cons.mp hn with rfl | hn'
    · exact foldl_thumbStep_mono gen l _ _ (thumbStep_self_present gen st n)
    · exact ih (thumbStep gen st a) n hn'

lemma foldl_thumbStep_skip_all (gen : String → String) (l : List String)
    (st : List (String × String) × Nat)
    (h : ∀ n ∈ l, (st.1.lookup (thumbName n)).isSome = true) :
    l.foldl (thumbStep gen) st = st := by
  induction l with
  | nil => rfl
  | cons a l ih =>
    rw [List.foldl_cons, thumbStep_skip gen st a (h a (List.mem_cons_self a l))]
    exact ih (fun n hn => h n (List.mem_cons_of_mem a hn))

/-- C4: the batch skips every source whose derived thumbnail already exists,
doing no generation work for it; consequently a second run over the
unchanged source list leaves the thumbnail directory exactly as the first
run left it and performs zero decode/resize/encode passes. -/
theorem c4_thumb_batch_idempotent :
    (∀ (gen : String → String) (st : List (String × String) × Nat) (name : String),
      (st.1.lookup (thumbName name)).isSome = true → thumbStep gen st name = st) ∧
    (∀ (gen : String → String) (names : List String) (dir : List (String × String)),
      thumbBatch gen names (thumbBatch gen names dir).1 = ((thumbBatch gen names dir).1, 0)) := by
  refine ⟨thumbStep_skip, ?_⟩
  intro gen names dir
  unfold thumbBatch
  exact foldl_thumbStep_skip_all gen (goSortStrings names) _
    (fun n hn => foldl_thumbStep_covers gen (goSortStrings names) (dir, 0) n hn)

/-- Witness for C4: a source whose thumbnail is already on disk is skipped. -/
theorem c4_thumb_batch_idempotent_witness :
    (([("a.jpeg", "y")], 0).1.lookup (thumbName "a.gif")).isSome = true ∧
    thumbStep (fun _ => "x") ([("a.jpeg", "y")], 0) "a.gif" = ([("a.jpeg", "y")], 0) :=
  ⟨by decide, c4_thumb_batch_idempotent.1 (fun _ => "x") ([("a.jpeg", "y")], 0) "a.gif" (by decide)⟩

/-- C5 counterexample: for the source name `a.png` the code produces
`a.png.jpeg`, while replacing the extension would produce `a.jpeg`; so the
mapping does not replace the extension for every source name. -/
theorem c5_counterexample :
    thumbName "a.png" = "a.png.jpeg" ∧ specReplaceExtension "a.png" = "a.jpeg" ∧
    thumbName "a.png" ≠ specReplaceExtension "a.png" := by decide

/-- A successful Go `HasSuffix` test for `.gif` splits the name. -/
lemma goHasSuffix_gif_decomp {name : String} (h : goHasSuffix name ".gif" = true) :
    name.toList = name.toList.take (name.toList.length - 4) ++ ['.', 'g', 'i', 'f'] := by
  unfold goHasSuffix at h
  have hp := of_decide_eq_true h
  obtain ⟨hlen, hdrop⟩ := hp
  have hgif : (".gif" : String).toList = ['.', 'g', 'i', 'f'] := by decide
  have hlen4 : (".gif" : String).toList.length = 4 := by decide
  rw [hlen4] at hdrop
  rw [hgif] at hdrop
  conv_lhs => rw [← List.take_append_drop (name.toList.length - 4) name.toList]
  rw [hdrop]

lemma dropWhile_until_dot (l : List Char) :
    List.dropWhile (fun c => !(c == '.')) ('f' :: 'i' :: 'g' :: '.' :: l) = '.' :: l := by
  have hf : (!('f' == '.')) = true := by decide
  have hi : (!('i' == '.')) = true := by decide
  have hg : (!('g' == '.')) = true := by decide
  have hd : (!('.' == '.')) = false := by decide
  simp only [List.dropWhile_cons, hf, hi, hg, hd, if_true, if_false]
  simp

/-- C5 (amended): the derived thumbnail name strips a trailing `.gif` suffix
when present and appends `.jpeg`; so the extension is replaced exactly for
`.gif` sources, while every other source name keeps its extension and gets
`.jpeg` appended after it. -/
theorem c5_thumb_name_trims_gif_only :
    ∀ name : String,
      (goHasSuffix name ".gif" = true → thumbName name = specReplaceExtension name) ∧
      (goHasSuffix name ".gif" = false → thumbName name = name ++ ".jpeg") := by
  intro name
  constructor
  · intro h
    obtain ⟨pre, hd⟩ : ∃ pre, name.toList = pre ++ ['.', 'g', 'i', 'f'] :=
      ⟨_, goHasSuffix_gif_decomp h⟩
    have hlen : name.toList.length - (".gif" : String).toList.length = pre.length := by
      rw [hd]
      simp
    have h1 : thumbName name = String.mk pre ++ ".jpeg" := by
      unfold thumbName goTrimSuffix
      rw [if_pos h, hlen, hd, List.take_left]
    have h2 : specReplaceExtension name = String.mk pre ++ ".jpeg" := by
      unfold specReplaceExtension
      rw [hd]
      have hmem : '.' ∈ pre ++ ['.', 'g', 'i', 'f'] := by simp
      rw [if_pos hmem, List.reverse_append]
      have hrev : (['.', 'g', 'i', 'f'] : List Char).reverse = ['f', 'i', 'g', '.'] := by decide
      rw [hrev]
      show String.mk ((List.dropWhile (fun c => !(c == '.'))
        ('f' :: 'i' :: 'g' :: '.' :: pre.reverse)).drop 1).reverse ++ ".jpeg" =
        String.mk pre ++ ".jpeg"
      rw [dropWhile_until_dot, List.drop_one, List.tail_cons, List.reverse_reverse]
    rw [h1, h2]
  · intro h
    unfold thumbName goTrimSuffix
    rw [if_neg (by rw [h]; exact Bool.false_ne_true)]

/-- Witness for C5 (amended) at `a.gif` and `b`. -/
theorem c5_thumb_name_trims_gif_only_witness :
    goHasSuffix "a.gif" ".gif" = true ∧ thumbName "a.gif" = specReplaceExtension "a.gif" ∧
    goHasSuffix "b" ".gif" = false ∧ thumbName "b" = "b" ++ ".jpeg" :=
  ⟨by decide, (c5_thumb_name_trims_gif_only "a.gif").1 (by decide),
    by decide, (c5_thumb_name_trims_gif_only "b").2 (by decide)⟩

/-- C7: in the thumbnail batch, a generation failure (open, decode, create,
or encode) for one source aborts the whole run with that error, and the
result does not depend on the sources after the failing one — none of them
is processed. -/
theorem c7_first_failure_aborts_batch :
    (∀ (gen : String → Except String String) (names : List String)
      (dir : List (String × String)),
      thumbBatchE gen names dir = thumbRunE gen (goSortStrings names) (dir, 0)) ∧
    (∀ (gen : String → Except String String) (pre rest : List String) (name e : String)
      (st st' : List (String × String) × Nat),
      thumbRunE gen pre st = Except.ok st' →
      thumbStepE gen st' name = Except.error e →
      thumbRunE gen (pre ++ name :: rest) st = Except.error e) := by
  refine ⟨fun gen names dir => rfl, ?_⟩
  intro gen pre rest name e st st' h1 h2
  induction pre generalizing st with
  | nil =>
    have hst : st = st' := by
      simpa [thumbRunE] using h1
    subst hst
    simp only [List.nil_append, thumbRunE, h2]
  | cons a pre ih =>
    rw [List.cons_append]
    simp only [thumbRunE] at h1 ⊢
    cases hst : thumbStepE gen st a with
    | error e' =>
      rw [hst] at h1
      exact Except.noConfusion h1
    | ok s1 =>
      rw [hst] at h1
      exact ih s1 h1

/-- Witness for C7: the second of three sources fails to decode; the run
aborts there and the third source is untouched. -/
theorem c7_first_failure_aborts_batch_witness :
    thumbRunE (fun n => if n = "b.gif" then Except.error "decode fail" else Except.ok "c")
      ["a.gif"] ([], 0) = Except.ok ([("a.jpeg", "c")], 1) ∧
    thumbStepE (fun n => if n = "b.gif" then Except.error "decode fail" else Except.ok "c")
      ([("a.jpeg", "c")], 1) "b.gif" = Except.error "decode fail" ∧
    thumbRunE (fun n => if n = "b.gif" then Except.error "decode fail" else Except.ok "c")
      (["a.gif"] ++ "b.gif" :: ["z.gif"]) ([], 0) = Except.error "decode fail" :=
  ⟨by decide, by decide,
    c7_first_failure_aborts_batch.2
      (fun n => if n = "b.gif" then Except.error "decode fail" else Except.ok "c")
      ["a.gif"] ["z.gif"] "b.gif" "decode fail" ([], 0) ([("a.jpeg", "c")], 1)
      (by decide) (by decide)⟩

/-- C8: the batch resizes with requested width 128, requested height 0 and
the Lanczos3 filter, encoding with default JPEG quality; under the
spec-modelled dimension rule for the external resize library, the output is
128 wide and its height is the rounded value of `128 * oh / ow`. -/
theorem c8_thumbnail_dimensions :
    thumbResizeCall = ⟨128, 0, "Lanczos3"⟩ ∧
    thumbJpegQuality = none ∧
    ∀ ow oh : Nat, 0 < ow →
      (resizeOutputDims thumbResizeCall ow oh).1 = 128 ∧
      ((resizeOutputDims thumbResizeCall ow oh).2 : ℤ) =
        round ((128 * (oh : ℚ)) / (ow : ℚ)) := by
  refine ⟨rfl, rfl, ?_⟩
  intro ow oh how
  have hdef : resizeOutputDims thumbResizeCall ow oh = (128, (256 * oh + ow) / (2 * ow)) := by
    unfold resizeOutputDims thumbResizeCall
    norm_num
  rw [hdef]
  refine ⟨rfl, ?_⟩
  have how : (ow : ℚ) ≠ 0 := Nat.cast_ne_zero.mpr (Nat.pos_iff_ne_zero.mp how)
  have hq : (128 * (oh : ℚ)) / (ow : ℚ) + 1 / 2 =
      ((256 * oh + ow : ℕ) : ℚ) / ((2 * ow : ℕ) : ℚ) := by
    push_cast
    field_simp
    ring
  have hnn : (0 : ℚ) ≤ ((256 * oh + ow : ℕ) : ℚ) / ((2 * ow : ℕ) : ℚ) := by positivity
  rw [round_eq, hq, ← Int.natCast_floor_eq_floor hnn, Nat.floor_div_eq_div]

/-- Witness for C8 at a 160 by 3 source: the height rounds to 2. -/
theorem c8_thumbnail_dimensions_witness :
    0 < 160 ∧ (resizeOutputDims thumbResizeCall 160 3).1 = 128 ∧
      ((resizeOutputDims thumbResizeCall 160 3).2 : ℤ) =
        round ((128 * ((3 : ℕ) : ℚ)) / (((160 : ℕ)) : ℚ)) := by
  exact ⟨by decide, c8_thumbnail_dimensions.2.2 160 3 (by decide)⟩

/-- C9 counterexample: no route is registered at `/thumbnails/:name`; the
thumbnail route is registered at `/thumbs/:image`. -/
theorem c9_counterexample :
    ("GET", "/thumbnails/:name") ∉ registeredRoutes ∧
    ("GET", "/thumbs/:image") ∈ registeredRoutes := by decide

/-- C9 (amended): the thumbnail-enabled variant serves thumbnails at
`GET /thumbs/:image`; the handler applies the base-name guard — rejecting
exactly the inputs whose base name is `..` — and on acceptance performs a
raw read of `thumbs/<name>`, answering with content type `image/jpeg`. -/
theorem c9_thumb_route_path_and_behavior :
    ("GET", "/thumbs/:image") ∈ registeredRoutes ∧
    (∀ s : String, pathGuard s = Except.error "file not found" ↔ goFilepathBase s = "..") ∧
    (∀ (fs : Fs) (param file data : String),
      pathGuard param = Except.ok file → fs ("thumbs/" ++ file) = Except.ok data →
      routeThumbs fs param = Except.ok ("image/jpeg", data)) ∧
    (∀ (fs : Fs) (param : String), goFilepathBase param = ".." →
      routeThumbs fs param = Except.error "file not found") := by
  refine ⟨by decide, pathGuard_reject_iff, ?_, ?_⟩
  · intro fs param file data hg hf
    simp only [routeThumbs, hg, hf]
  · intro fs param h
    have hg : pathGuard param = Except.error "file not found" := (pathGuard_reject_iff param).mpr h
    simp only [routeThumbs, hg]

/-- Witness for C9 (amended): serving `a.jpeg` from a one-file thumbnail
directory, and rejecting `..`. -/
theorem c9_thumb_route_path_and_behavior_witness :
    routeThumbs (fun p => if p = "thumbs/a.jpeg" then Except.ok "JPEGDATA"
      else Except.error "no such file or directory") "a.jpeg" =
      Except.ok ("image/jpeg", "JPEGDATA") ∧
    routeThumbs fsEmpty ".." = Except.error "file not found" :=
  ⟨c9_thumb_route_path_and_behavior.2.2.1
      (fun p => if p = "thumbs/a.jpeg" then Except.ok "JPEGDATA"
        else Except.error "no such file or directory")
      "a.jpeg" "a.jpeg" "JPEGDATA" (by decide) (by decide),
    c9_thumb_route_path_and_behavior.2.2.2 fsEmpty ".." (by decide)⟩

end Images
